import Mathlib

/-!
Shallow embedding of the CryptoPayments repository core (payment engine,
subscription engine, webhook retry engine, Tron chain adapter, OFAC screening)
and proofs about it.

Each definition is translated from the TypeScript source; the file/lines are
cited in the doc comments.  Persistent storage is modelled as in-memory lists
of rows; `Date.now()` values are naturals (milliseconds); every function takes
the clock value it reads as an explicit `now` argument.  Database-generated
row ids are passed in as explicit arguments.
-/

namespace CryptoPayments

/-- Payment lifecycle states, from `shared/schema.ts` (`PaymentStatus`). -/
inductive PaymentStatus where
  | pending
  | awaiting_confirmation
  | confirmed
  | expired
  | failed
  | cancelled
deriving DecidableEq, Repr

/-- Subscription states, from `shared/schema.ts` (`SubscriptionStatus`). -/
inductive SubscriptionStatus where
  | active
  | expired
  | cancelled
deriving DecidableEq, Repr

/-- Supported networks, from `shared/schema.ts` (`Network`). -/
inductive Network where
  | arbitrum
  | ethereum
  | tron
deriving DecidableEq, Repr

/-- Supported tokens, from `shared/schema.ts` (`Token`). -/
inductive Token where
  | USDT
  | USDC
deriving DecidableEq, Repr

/-- A row of the `payments` table (the fields the core reads and writes).
Times are milliseconds since the epoch. -/
structure PaymentRow where
  id : String
  tenantId : String
  externalUserId : String
  planId : String
  amount : String
  token : Token
  network : Network
  senderAddressEncrypted : String
  senderAddressHmac : String
  receiverAddress : String
  status : PaymentStatus
  txHash : Option String
  confirmations : Nat
  txConfirmedAt : Option Nat
  errorMessage : Option String
  expiresAt : Nat
  createdAt : Nat
deriving DecidableEq, Repr

/-- A row of the `subscriptions` table. -/
structure SubscriptionRow where
  id : String
  tenantId : String
  externalUserId : String
  planId : String
  paymentId : Option String
  status : SubscriptionStatus
  startsAt : Nat
  endsAt : Option Nat
  createdAt : Nat
deriving DecidableEq, Repr

/-- A row of the `plans` table. -/
structure PlanRow where
  id : String
  tenantId : String
  planKey : String
  name : String
  price : String
  currency : Token
  periodDays : Option Nat
  isActive : Bool
deriving DecidableEq, Repr

/-- A row of the `tenants` table (the fields the payment engine reads). -/
structure TenantRow where
  id : String
  name : String
  webhookUrl : Option String
  webhookSecret : Option String
  paymentAddressEvm : Option String
  paymentAddressTron : Option String
  isActive : Bool
deriving DecidableEq, Repr

/-- A row of the `webhook_logs` table. -/
structure WebhookLogRow where
  id : String
  tenantId : String
  event : String
  payload : String
  url : String
  responseStatus : Option Nat
  responseBody : Option String
  success : Bool
  retryCount : Nat
  nextRetryAt : Option Nat
deriving DecidableEq, Repr

/-- A row of the `ofac_sanctioned_addresses` table. -/
structure OfacRow where
  address : String
  addressLower : String
  addressType : String
  sdnName : String
  sdnId : String
  source : String
deriving DecidableEq, Repr

/-- A webhook emission: the event name together with the id of the entity it
reports (payment id or subscription id).  Recorded whenever the code calls one
of the `webhookService.send*` helpers. -/
structure EmittedEvent where
  event : String
  entityId : String
deriving DecidableEq, Repr

/-- Decidable equality for `Except`, for evaluating service results. -/
instance {ε α : Type} [DecidableEq ε] [DecidableEq α] : DecidableEq (Except ε α) := fun
  | .error a, .error b =>
    if h : a = b then .isTrue (by rw [h])
    else .isFalse (by intro hh; cases hh; exact h rfl)
  | .error _, .ok _ => .isFalse (by intro h; cases h)
  | .ok _, .error _ => .isFalse (by intro h; cases h)
  | .ok a, .ok b =>
    if h : a = b then .isTrue (by rw [h])
    else .isFalse (by intro hh; cases hh; exact h rfl)

/-! ## Static configuration (`server/config/networks.ts`) -/

/-- `PAYMENT_TIMEOUT_MINUTES` (networks.ts line 74). -/
def PAYMENT_TIMEOUT_MINUTES : Nat := 30

/-- `WEBHOOK_RETRY_DELAYS` (networks.ts line 77), in seconds. -/
def WEBHOOK_RETRY_DELAYS : List Nat := [60, 300, 900, 3600]

/-- `minConfirmations` for the three networks (networks.ts lines 20, 43, 65). -/
def minConfirmations : Network → Int
  | .arbitrum => 3
  | .ethereum => 3
  | .tron => 19

/-! ## Storage operations (`DatabaseStorage`, in the storage module) -/

/-- `getPayment`: single-row select by id. -/
def getPayment (ps : List PaymentRow) (id : String) : Option PaymentRow :=
  ps.find? (fun p => p.id = id)

/-- `getPaymentByTxHash`: first row whose `tx_hash` equals the argument. -/
def getPaymentByTxHash (ps : List PaymentRow) (h : String) : Option PaymentRow :=
  ps.find? (fun p => p.txHash = some h)

/-- `getPendingPaymentForUser`: first row of the `(tenant, user)` pair whose
status is `pending` or `awaiting_confirmation`. -/
def getPendingPaymentForUser (ps : List PaymentRow) (tenantId externalUserId : String) :
    Option PaymentRow :=
  ps.find? (fun p =>
    p.tenantId = tenantId ∧ p.externalUserId = externalUserId ∧
    (p.status = PaymentStatus.pending ∨ p.status = PaymentStatus.awaiting_confirmation))

/-- The SQL predicate of `getActiveSubscription`: status `active` and
(`ends_at IS NULL` or `now < ends_at`). -/
def subEffectivelyActive (now : Nat) (s : SubscriptionRow) : Prop :=
  s.status = SubscriptionStatus.active ∧
  (s.endsAt = none ∨ ∃ e, s.endsAt = some e ∧ now < e)

instance (now : Nat) (s : SubscriptionRow) : Decidable (subEffectivelyActive now s) := by
  unfold subEffectivelyActive; infer_instance

/-- `ORDER BY created_at DESC LIMIT 1`: the row with the largest `created_at`
among the filtered rows (first such row on ties). -/
def pickLatest (l : List SubscriptionRow) : Option SubscriptionRow :=
  l.foldl (fun acc s =>
    match acc with
    | none => some s
    | some b => if b.createdAt < s.createdAt then some s else some b) none

/-- The full WHERE clause of `getActiveSubscription`: the `(tenant, user)`
pair together with `subEffectivelyActive`. -/
def pairActive (tenantId externalUserId : String) (now : Nat) (s : SubscriptionRow) : Prop :=
  s.tenantId = tenantId ∧ s.externalUserId = externalUserId ∧ subEffectivelyActive now s

instance (tenantId externalUserId : String) (now : Nat) (s : SubscriptionRow) :
    Decidable (pairActive tenantId externalUserId now s) := by
  unfold pairActive; infer_instance

/-- `getActiveSubscription` (storage module): select the `(tenant, user)` rows
with status `active` and `ends_at` null or in the future, newest first, limit 1. -/
def getActiveSubscription (subs : List SubscriptionRow) (tenantId externalUserId : String)
    (now : Nat) : Option SubscriptionRow :=
  pickLatest (subs.filter (fun s => pairActive tenantId externalUserId now s))

/-- The SQL predicate of `getExpiredSubscriptions`: status `active` and
`ends_at < now` (strict; a NULL `ends_at` satisfies no comparison). -/
def subDue (now : Nat) (s : SubscriptionRow) : Prop :=
  s.status = SubscriptionStatus.active ∧ ∃ e, s.endsAt = some e ∧ e < now

instance (now : Nat) (s : SubscriptionRow) : Decidable (subDue now s) := by
  unfold subDue; infer_instance

/-- `getExpiredSubscriptions` (storage module). -/
def getExpiredSubscriptions (subs : List SubscriptionRow) (now : Nat) : List SubscriptionRow :=
  subs.filter (fun s => subDue now s)

/-- `updateSubscription(id, { status })`: set the status of the rows matching
the id. -/
def updateSubscriptionStatus (subs : List SubscriptionRow) (id : String)
    (st : SubscriptionStatus) : List SubscriptionRow :=
  subs.map (fun s => if s.id = id then { s with status := st } else s)

/-- `getPendingWebhooks` (storage module): `success = false`,
`retry_count < 4`, and `next_retry_at` null or strictly before `now`. -/
def getPendingWebhooks (logs : List WebhookLogRow) (now : Nat) : List WebhookLogRow :=
  logs.filter (fun l =>
    l.success = false ∧ l.retryCount < 4 ∧
    (l.nextRetryAt = none ∨ ∃ t, l.nextRetryAt = some t ∧ t < now))

/-! ## Webhook retry engine (`WebhookService`) -/

/-- `WebhookService.scheduleRetry(logId)`: re-read the log through
`getPendingWebhooks`, bump `retry_count`; when the bumped count reaches the
length of `WEBHOOK_RETRY_DELAYS` leave the row untouched, otherwise write the
new count and `next_retry_at = now + delays[newCount] * 1000`. -/
def scheduleRetry (logs : List WebhookLogRow) (logId : String) (now : Nat) :
    List WebhookLogRow :=
  match (getPendingWebhooks logs now).find? (fun l => l.id = logId) with
  | none => logs
  | some log =>
    let retryCount := log.retryCount + 1
    if retryCount ≥ WEBHOOK_RETRY_DELAYS.length then logs
    else logs.map (fun l =>
      if l.id = logId then
        { l with retryCount := retryCount,
                 nextRetryAt := some (now + (WEBHOOK_RETRY_DELAYS.getD retryCount 0) * 1000) }
      else l)

/-! ## String primitives

JavaScript's `toLowerCase`, `trim` and `startsWith` are library primitives;
they are modelled on the character list of the string so that they evaluate
inside the kernel. -/

/-- JavaScript `String.prototype.toLowerCase` (ASCII range). -/
def toLowerStr (s : String) : String :=
  ⟨s.data.map Char.toLower⟩

/-- JavaScript `String.prototype.trim`: strip whitespace at both ends. -/
def trimStr (s : String) : String :=
  ⟨((s.data.dropWhile Char.isWhitespace).reverse.dropWhile Char.isWhitespace).reverse⟩

/-! ## Address validation (`server/utils/addressValidation.ts`) -/

/-- The character class `[0-9a-fA-F]`. -/
def isHexChar (c : Char) : Prop :=
  c.isDigit ∨ ('a' ≤ c ∧ c ≤ 'f') ∨ ('A' ≤ c ∧ c ≤ 'F')

instance (c : Char) : Decidable (isHexChar c) := by
  unfold isHexChar; infer_instance

/-- `validateEvmAddress` (addressValidation.ts lines 12-33): nonempty, starts
with `0x`, 42 characters, hex after the prefix.  (The checksum variant the
source also computes is informational only.) -/
def validateEvmAddress (address : String) : Bool :=
  if address = "" then false
  else if address.data.take 2 ≠ ['0', 'x'] then false
  else if address.data.length ≠ 42 then false
  else decide (∀ c ∈ address.data.drop 2, isHexChar c)

/-- The Base58 alphabet used for Tron addresses (no `0`, `O`, `I`, `l`). -/
def isBase58Char (c : Char) : Prop :=
  (('1' ≤ c ∧ c ≤ '9') ∨ ('A' ≤ c ∧ c ≤ 'Z') ∨ ('a' ≤ c ∧ c ≤ 'z')) ∧
  c ≠ 'O' ∧ c ≠ 'I' ∧ c ≠ 'l'

instance (c : Char) : Decidable (isBase58Char c) := by
  unfold isBase58Char; infer_instance

/-- `validateTronAddress` (addressValidation.ts lines 35-54): nonempty, starts
with `T`, 34 characters, Base58 alphabet. -/
def validateTronAddress (address : String) : Bool :=
  if address = "" then false
  else if address.data.take 1 ≠ ['T'] then false
  else if address.data.length ≠ 34 then false
  else decide (∀ c ∈ address.data, isBase58Char c)

/-- `validateAddress` (addressValidation.ts lines 56-75), validity flag only. -/
def validateAddressValid (address : String) (network : Network) : Bool :=
  match network with
  | .tron => validateTronAddress address
  | _ => validateEvmAddress address

/-- `normalizeAddress` (addressValidation.ts lines 97-102): Tron unchanged,
EVM lower-cased. -/
def normalizeAddress (address : String) (network : Network) : String :=
  match network with
  | .tron => address
  | _ => toLowerStr address

/-! ## OFAC screening (`server/services/ofacService.ts`) -/

/-- Result shape of `OfacService.checkAddress`. -/
structure OfacCheckResult where
  isSanctioned : Bool
  address : String
  matchedEntries : List OfacRow
deriving DecidableEq, Repr

/-- `OfacService.checkAddress` (ofacService.ts lines 56-74): exact lookup of
`lower(trim(addr))` against the `address_lower` column. -/
def checkAddress (table : List OfacRow) (address : String) : OfacCheckResult :=
  let normalizedAddress := trimStr (toLowerStr address)
  let matchRows := table.filter (fun m => m.addressLower = normalizedAddress)
  { isSanctioned := matchRows.length > 0
    address := address
    matchedEntries := matchRows }

/-! ## Payment engine (`server/services/paymentService.ts`) -/

/-- The relevant persistent state seen by `PaymentService.initiatePayment`. -/
structure InitiateState where
  tenants : List TenantRow
  plans : List PlanRow
  payments : List PaymentRow
deriving DecidableEq, Repr

/-- Result view of `initiatePayment` (the instruction strings are static). -/
structure InitiatePaymentResult where
  paymentId : String
  receiverAddress : String
  amount : String
  token : Token
  network : Network
  expiresAt : Nat
deriving DecidableEq, Repr

/-- `PaymentService.initiatePayment` (paymentService.ts lines 56-126).
Checks, in source order: tenant exists; plan exists, belongs to the tenant and
is active; sender address valid for the network; no in-flight payment for the
user; receiver address configured (tenant row, else process environment).
Then normalizes, encrypts and HMACs the sender address and persists a
`pending` row.  `encrypt` and `hmac` stand for the crypto primitives (node
`crypto` library calls); `newId` is the database-generated row id; `envEvm` /
`envTron` are `PAYMENT_ADDRESS_EVM` / `PAYMENT_ADDRESS_TRON`.  The source
performs no OFAC lookup on this path. -/
def initiatePayment (st : InitiateState) (tenantId externalUserId planId : String)
    (network : Network) (token : Token) (senderAddress : String)
    (envEvm envTron : Option String) (now : Nat) (newId : String)
    (encrypt hmac : String → String) :
    Except String (InitiatePaymentResult × List PaymentRow) :=
  match st.tenants.find? (fun t => t.id = tenantId) with
  | none => .error "Tenant not found"
  | some tenant =>
    match st.plans.find? (fun p => p.id = planId) with
    | none => .error "Plan not found or not available"
    | some plan =>
      if plan.tenantId ≠ tenantId ∨ plan.isActive = false then
        .error "Plan not found or not available"
      else if validateAddressValid senderAddress network = false then
        .error "Invalid sender address"
      else
        match getPendingPaymentForUser st.payments tenantId externalUserId with
        | some _ => .error "User already has a pending payment"
        | none =>
          let receiverAddress? :=
            match network with
            | .tron => tenant.paymentAddressTron <|> envTron
            | _ => tenant.paymentAddressEvm <|> envEvm
          match receiverAddress? with
          | none => .error "Payment address not configured for this network"
          | some receiverAddress =>
            let normalizedSenderAddress := normalizeAddress senderAddress network
            let expiresAt := now + PAYMENT_TIMEOUT_MINUTES * 60 * 1000
            let payment : PaymentRow :=
              { id := newId
                tenantId := tenantId
                externalUserId := externalUserId
                planId := planId
                amount := plan.price
                token := token
                network := network
                senderAddressEncrypted := encrypt normalizedSenderAddress
                senderAddressHmac := hmac normalizedSenderAddress
                receiverAddress := receiverAddress
                status := .pending
                txHash := none
                confirmations := 0
                txConfirmedAt := none
                errorMessage := none
                expiresAt := expiresAt
                createdAt := now }
            .ok ({ paymentId := newId
                   receiverAddress := receiverAddress
                   amount := plan.price
                   token := token
                   network := network
                   expiresAt := expiresAt },
                 st.payments ++ [payment])

/-- `PaymentService.handleConfirmedTransaction` (paymentService.ts lines
209-231).  Reads the payment (error when absent), then the double-spend guard:
if some row already carries `txHash` and its id differs from `paymentId`, a
domain error; otherwise the row is updated to `confirmed` with `tx_hash`,
`confirmations` and `tx_confirmed_at = now`.  The `amount` argument is
accepted but not persisted, as in the source.  No status check is performed. -/
def handleConfirmedTransaction (ps : List PaymentRow) (paymentId txHash : String)
    (confirmations : Nat) (_amount : String) (now : Nat) :
    Except String (List PaymentRow) :=
  match getPayment ps paymentId with
  | none => .error "Payment not found"
  | some _ =>
    match getPaymentByTxHash ps txHash with
    | some existing =>
      if existing.id ≠ paymentId then
        .error "Transaction already used for another payment"
      else
        .ok (ps.map (fun p =>
          if p.id = paymentId then
            { p with status := .confirmed, txHash := some txHash,
                     confirmations := confirmations, txConfirmedAt := some now }
          else p))
    | none =>
      .ok (ps.map (fun p =>
        if p.id = paymentId then
          { p with status := .confirmed, txHash := some txHash,
                   confirmations := confirmations, txConfirmedAt := some now }
        else p))

/-- Runner for `handleConfirmedTransaction` making the post-state explicit:
a thrown error leaves the stored rows exactly as they were (the update is the
last operation of the method). -/
def runHandleConfirmedTransaction (ps : List PaymentRow) (paymentId txHash : String)
    (confirmations : Nat) (amount : String) (now : Nat) :
    Option String × List PaymentRow :=
  match handleConfirmedTransaction ps paymentId txHash confirmations amount now with
  | .error e => (some e, ps)
  | .ok ps' => (none, ps')

/-! ## Subscription engine (`server/services/subscriptionService.ts`) -/

/-- `SubscriptionService.activateSubscription` (subscriptionService.ts lines
20-53).  Resolves the plan (error when absent); `starts_at = now`;
`ends_at = now + periodDays·24h` when `periodDays` is set and positive, else
null; expires the subscription returned by `getActiveSubscription` (when any);
inserts the new row as `active`.  `newSubId` is the database-generated id and
the row's `created_at` is `now`. -/
def activateSubscription (plans : List PlanRow) (subs : List SubscriptionRow)
    (payment : PaymentRow) (now : Nat) (newSubId : String) :
    Except String (SubscriptionRow × List SubscriptionRow) :=
  match plans.find? (fun p => p.id = payment.planId) with
  | none => .error "Plan not found"
  | some plan =>
    let endsAt : Option Nat :=
      match plan.periodDays with
      | some d => if d > 0 then some (now + d * 24 * 60 * 60 * 1000) else none
      | none => none
    let subs1 :=
      match getActiveSubscription subs payment.tenantId payment.externalUserId now with
      | some existing => updateSubscriptionStatus subs existing.id .expired
      | none => subs
    let newSub : SubscriptionRow :=
      { id := newSubId
        tenantId := payment.tenantId
        externalUserId := payment.externalUserId
        planId := payment.planId
        paymentId := some payment.id
        status := .active
        startsAt := now
        endsAt := endsAt
        createdAt := now }
    .ok (newSub, subs1 ++ [newSub])

/-- `SubscriptionService.isSubscriptionActive` (subscriptionService.ts lines
90-93): truthiness of the `getActiveSubscription` lookup. -/
def isSubscriptionActive (subs : List SubscriptionRow) (tenantId externalUserId : String)
    (now : Nat) : Bool :=
  (getActiveSubscription subs tenantId externalUserId now).isSome

/-- `SubscriptionService.checkAndExpireSubscriptions` (subscriptionService.ts
lines 99-110): loop over `getExpiredSubscriptions(now)` setting each row's
status to `expired`, counting as it goes.  The loop body makes no
`webhookService` call, so the run emits no events; the emissions component is
returned to make that observable. -/
def checkAndExpireSubscriptions (subs : List SubscriptionRow) (now : Nat) :
    Nat × List SubscriptionRow × List EmittedEvent :=
  let due := getExpiredSubscriptions subs now
  let subs1 := due.foldl (fun acc s => updateSubscriptionStatus acc s.id .expired) subs
  (due.length, subs1, [])

/-! ## Tron chain adapter (`TronBlockchainService`) -/

/-- A TRC-20 transfer as returned by the TronGrid
`/v1/accounts/{receiver}/transactions/trc20` endpoint.  `value` is the raw
token amount already read as a number (the source applies `parseFloat`). -/
structure TronTransfer where
  fromAddress : String
  value : ℚ
  transactionId : String
  blockTimestamp : Nat
deriving DecidableEq, Repr

/-- Adapter result (`TransferResult` with `found = true`). -/
structure FoundTransfer where
  txHash : String
  confirmations : Int
  amount : ℚ
  timestamp : Nat
deriving DecidableEq, Repr

/-- `TronBlockchainService.getTransactionConfirmations` (lines 198-229 of the
service): when the transaction-info endpoint reports no `blockNumber` the
count is 0, otherwise `Math.max(0, currentBlock - blockNumber)` — the block
containing the transfer is not counted. -/
def getTransactionConfirmations (txBlockNumber : Option Int) (currentBlock : Int) : Int :=
  match txBlockNumber with
  | none => 0
  | some b => max 0 (currentBlock - b)

/-- The matching loop of `TronBlockchainService.findTransfer` (lines 173-191):
skip transfers whose sender does not match case-insensitively, skip transfers
below `0.99 × required`, then accept the first transfer whose confirmation
count (`confOf` models the `getTransactionConfirmations` call) reaches
`minConfirmations tron`; otherwise keep scanning. -/
def tronFindTransfer (transfers : List TronTransfer) (senderAddress : String)
    (requiredAmount : ℚ) (decimals : Nat) (confOf : String → Int) :
    Option FoundTransfer :=
  match transfers with
  | [] => none
  | tx :: rest =>
    if toLowerStr tx.fromAddress ≠ toLowerStr senderAddress then
      tronFindTransfer rest senderAddress requiredAmount decimals confOf
    else
      let transferAmount := tx.value / (10 : ℚ) ^ decimals
      if transferAmount < requiredAmount * (99 / 100 : ℚ) then
        tronFindTransfer rest senderAddress requiredAmount decimals confOf
      else
        let confirmations := confOf tx.transactionId
        if confirmations ≥ minConfirmations .tron then
          some { txHash := tx.transactionId
                 confirmations := confirmations
                 amount := transferAmount
                 timestamp := tx.blockTimestamp }
        else
          tronFindTransfer rest senderAddress requiredAmount decimals confOf

/-! ## Monitor confirmation path (`BlockchainMonitorService`) -/

/-- The persistent state touched by the confirmation path. -/
structure SysState where
  payments : List PaymentRow
  subscriptions : List SubscriptionRow
  plans : List PlanRow
  events : List EmittedEvent
deriving DecidableEq, Repr

/-- `BlockchainMonitorService.handlePaymentConfirmed` (blockchainMonitorService.ts
lines 140-168).  Inside one `try`: call `handleConfirmedTransaction`; re-read
the payment; send `payment.confirmed`; call `activateSubscription`; send
`subscription.activated`.  The `catch` only logs, so an error at any step
keeps every mutation already performed.  There is no enclosing transaction. -/
def handlePaymentConfirmed (st : SysState) (payment : PaymentRow) (txHash : String)
    (confirmations : Nat) (amount : String) (now : Nat) (newSubId : String) : SysState :=
  match handleConfirmedTransaction st.payments payment.id txHash confirmations amount now with
  | .error _ => st
  | .ok ps1 =>
    let st1 := { st with payments := ps1 }
    match getPayment ps1 payment.id with
    | none => st1
    | some updatedPayment =>
      let st2 := { st1 with
        events := st1.events ++ [{ event := "payment.confirmed", entityId := updatedPayment.id }] }
      match activateSubscription st2.plans st2.subscriptions updatedPayment now newSubId with
      | .error _ => st2
      | .ok (subscription, subs1) =>
        { st2 with
          subscriptions := subs1
          events := st2.events ++ [{ event := "subscription.activated", entityId := subscription.id }] }

/-- View shape of `SubscriptionService.getCurrentSubscription`
(subscriptionService.ts lines 55-88); the derived display fields (plan name,
days remaining) are elided. -/
structure SubscriptionInfoView where
  hasSubscription : Bool
  subscriptionId : Option String
deriving DecidableEq, Repr

/-- `SubscriptionService.getCurrentSubscription`: absent when
`getActiveSubscription` finds nothing. -/
def getCurrentSubscription (subs : List SubscriptionRow) (tenantId externalUserId : String)
    (now : Nat) : SubscriptionInfoView :=
  match getActiveSubscription subs tenantId externalUserId now with
  | none => { hasSubscription := false, subscriptionId := none }
  | some s => { hasSubscription := true, subscriptionId := some s.id }

/-- The update `handleConfirmedTransaction` writes: the row with the given id
becomes `confirmed` carrying `tx_hash`, `confirmations` and `tx_confirmed_at`. -/
def confirmUpdate (paymentId txHash : String) (confirmations now : Nat)
    (p : PaymentRow) : PaymentRow :=
  if p.id = paymentId then
    { p with status := .confirmed, txHash := some txHash,
             confirmations := confirmations, txConfirmedAt := some now }
  else p

/-- Invariant: every stored `tx_hash` value occurs on at most one payment
row (this is what the `tx_hash` unique index enforces). -/
def TxHashUnique (ps : List PaymentRow) : Prop :=
  ∀ p ∈ ps, ∀ q ∈ ps, p.id ≠ q.id → p.txHash = none ∨ p.txHash ≠ q.txHash

instance (ps : List PaymentRow) : Decidable (TxHashUnique ps) := by
  unfold TxHashUnique; infer_instance

/-- Invariant (I2): two distinct `confirmed` payments never share a
`tx_hash` value. -/
def ConfirmedTxHashDistinct (ps : List PaymentRow) : Prop :=
  ∀ p ∈ ps, ∀ q ∈ ps, p.id ≠ q.id → p.status = PaymentStatus.confirmed →
    q.status = PaymentStatus.confirmed → p.txHash = none ∨ p.txHash ≠ q.txHash

instance (ps : List PaymentRow) : Decidable (ConfirmedTxHashDistinct ps) := by
  unfold ConfirmedTxHashDistinct; infer_instance

/-! ## Concrete fixtures used in the concrete-input theorems -/

/-- A webhook log row right after its first failed delivery attempt. -/
def demoWebhookLog : WebhookLogRow :=
  { id := "w1", tenantId := "t1", event := "payment.created", payload := "x",
    url := "u", responseStatus := some 500, responseBody := none,
    success := false, retryCount := 0, nextRetryAt := none }

/-- A webhook log row that has exhausted the retry schedule: `retry_count = 3`
(the last index of `WEBHOOK_RETRY_DELAYS`) and a `next_retry_at` in the past. -/
def exhaustedWebhookLog : WebhookLogRow :=
  { demoWebhookLog with retryCount := 3, nextRetryAt := some 5000 }

/-- An active subscription whose `ends_at` (5) is strictly before the sweep
time (10). -/
def subDueDemo : SubscriptionRow :=
  { id := "s1", tenantId := "t1", externalUserId := "u1", planId := "pl1",
    paymentId := none, status := .active, startsAt := 0, endsAt := some 5, createdAt := 0 }

/-- An active subscription whose `ends_at` equals the sweep time exactly. -/
def subBoundaryDemo : SubscriptionRow :=
  { subDueDemo with id := "s2", endsAt := some 10 }

/-- An active subscription whose `ends_at` (100) has already passed at
activation time (200) while its stored status is still `active`. -/
def staleActiveSub : SubscriptionRow :=
  { subDueDemo with endsAt := some 100 }

/-- An active subscription with no `ends_at` (lifetime grant). -/
def lifetimeActiveSub : SubscriptionRow :=
  { subDueDemo with id := "s9", endsAt := none }

/-- A 30-day plan of tenant `t1`. -/
def demoPlan : PlanRow :=
  { id := "pl1", tenantId := "t1", planKey := "pro", name := "Pro", price := "19.99",
    currency := .USDC, periodDays := some 30, isActive := true }

/-- Tenant `t1` with an EVM receiver address configured. -/
def demoTenant : TenantRow :=
  { id := "t1", name := "Default", webhookUrl := none, webhookSecret := none,
    paymentAddressEvm := some "0xbbbbbbbbbbbbbbbbbbbbbbbbbbbbbbbbbbbbbbbb",
    paymentAddressTron := none, isActive := true }

/-- A confirmed payment of user `u1` on plan `pl1`. -/
def demoPaymentConfirmed : PaymentRow :=
  { id := "p1", tenantId := "t1", externalUserId := "u1", planId := "pl1",
    amount := "19.99", token := .USDC, network := .tron,
    senderAddressEncrypted := "e", senderAddressHmac := "h", receiverAddress := "r",
    status := .confirmed, txHash := some "tx", confirmations := 19,
    txConfirmedAt := some 150, errorMessage := none, expiresAt := 1800000, createdAt := 0 }

/-- A payment sitting in the `cancelled` terminal state, no `tx_hash`. -/
def cancelledPayment : PaymentRow :=
  { demoPaymentConfirmed with status := .cancelled, txHash := none,
                              txConfirmedAt := none }

/-- The `cancelled` payment after the confirmation update writes to it. -/
def cancelledPaymentConfirmed : PaymentRow :=
  { cancelledPayment with
      status := .confirmed
      txHash := some "0xabc"
      confirmations := 3
      txConfirmedAt := some 999 }

/-- A payment in `awaiting_confirmation` whose plan id does not exist. -/
def awaitingPaymentMissingPlan : PaymentRow :=
  { demoPaymentConfirmed with status := .awaiting_confirmation, txHash := none,
                              txConfirmedAt := none, planId := "missing" }

/-- A payment in `awaiting_confirmation` on the existing plan `pl1`. -/
def awaitingPayment : PaymentRow :=
  { demoPaymentConfirmed with status := .awaiting_confirmation, txHash := none,
                              txConfirmedAt := none }

/-- A second payment, already confirmed with tx hash `0xdup`. -/
def confirmedWithDup : PaymentRow :=
  { demoPaymentConfirmed with id := "p2", externalUserId := "u2", txHash := some "0xdup" }

/-- A valid EVM sender address that appears on the sanctioned-address table. -/
def sanctionedSender : String := "0xAAAAAAAAAAAAAAAAAAAAAAAAAAAAAAAAAAAAAAAA"

/-- One sanctioned-address row whose `address_lower` is the lower-cased form
of `sanctionedSender`. -/
def ofacDemoTable : List OfacRow :=
  [{ address := "0xAAAAAAAAAAAAAAAAAAAAAAAAAAAAAAAAAAAAAAAA",
     addressLower := "0xaaaaaaaaaaaaaaaaaaaaaaaaaaaaaaaaaaaaaaaa",
     addressType := "ethereum", sdnName := "ACME SDN", sdnId := "1",
     source := "OFAC_SDN" }]

/-- The subscription `activateSubscription` creates for
`demoPaymentConfirmed` at time 200 on the 30-day `demoPlan`. -/
def activatedDemoSub : SubscriptionRow :=
  { id := "s2", tenantId := "t1", externalUserId := "u1", planId := "pl1",
    paymentId := some "p1", status := .active, startsAt := 200,
    endsAt := some (200 + 30 * 24 * 60 * 60 * 1000), createdAt := 200 }

/-- A TRC-20 transfer of 19.99 (scaled by 10^6) from a matching sender. -/
def demoTronTransfer : TronTransfer :=
  { fromAddress := "TSenderAAAAAAAAAAAAAAAAAAAAAAAAAAA", value := 19990000,
    transactionId := "txid1", blockTimestamp := 5 }

/-! ## Helper lemmas -/

/-- The folding step of `pickLatest` keeps a `some` accumulator `some`. -/
theorem pickLatest_foldl_isSome (l : List SubscriptionRow) (b : SubscriptionRow) :
    (l.foldl (fun acc s =>
      match acc with
      | none => some s
      | some c => if c.createdAt < s.createdAt then some s else some c) (some b)).isSome := by
  induction l generalizing b with
  | nil => rfl
  | cons x xs ih =>
    simp only [List.foldl_cons]
    by_cases h : b.createdAt < x.createdAt <;> simp [h, ih]

/-- `pickLatest` returns `none` exactly on the empty list. -/
theorem pickLatest_eq_none_iff (l : List SubscriptionRow) :
    pickLatest l = none ↔ l = [] := by
  constructor
  · intro h
    cases l with
    | nil => rfl
    | cons x xs =>
      exfalso
      have hs := pickLatest_foldl_isSome xs x
      unfold pickLatest at h
      simp only [List.foldl_cons] at h
      rw [h] at hs
      exact Bool.noConfusion hs
  · intro h; subst h; rfl

/-- Whatever `pickLatest` returns is an element of the list. -/
theorem pickLatest_mem {l : List SubscriptionRow} {s : SubscriptionRow}
    (h : pickLatest l = some s) : s ∈ l := by
  suffices H : ∀ (l : List SubscriptionRow) (acc : Option SubscriptionRow),
      l.foldl (fun acc s =>
        match acc with
        | none => some s
        | some c => if c.createdAt < s.createdAt then some s else some c) acc = some s →
      acc = some s ∨ s ∈ l by
    rcases H l none h with h' | h'
    · exact Option.noConfusion h'
    · exact h'
  intro l
  induction l with
  | nil => intro acc h; exact Or.inl h
  | cons x xs ih =>
    intro acc h
    simp only [List.foldl_cons] at h
    rcases ih _ h with h' | h'
    · cases acc with
      | none =>
        simp only at h'
        exact Or.inr ((Option.some.inj h') ▸ List.mem_cons_self x xs)
      | some b =>
        simp only at h'
        by_cases hc : b.createdAt < x.createdAt
        · simp only [hc, if_true] at h'
          exact Or.inr ((Option.some.inj h') ▸ List.mem_cons_self x xs)
        · simp only [hc, if_false] at h'
          exact Or.inl h'
    · exact Or.inr (List.mem_cons_of_mem x h')

/-- Splitting a `countP` along a second predicate. -/
theorem countP_split {α : Type} (p q : α → Bool) (l : List α) :
    l.countP p = l.countP (fun x => p x && q x) + l.countP (fun x => p x && !q x) := by
  induction l with
  | nil => rfl
  | cons x xs ih =>
    simp only [List.countP_cons]
    by_cases hp : p x = true <;> by_cases hq : q x = true <;>
      simp [hp, hq, ih] <;> omega

/-- In a list where at most one element satisfies `p`, any member satisfying
`p` is the only one: counting `p`-elements different from it yields zero. -/
theorem countP_eliminate_unique {α : Type} (p : α → Bool) (q : α → Bool) (l : List α)
    (hle : l.countP p ≤ 1) (e : α) (he : e ∈ l) (hp : p e = true) (hq : q e = false) :
    l.countP (fun x => p x && q x) = 0 := by
  have hpos : 0 < l.countP (fun x => p x && !q x) :=
    List.countP_pos_iff.mpr ⟨e, he, by simp [hp, hq]⟩
  have hsplit := countP_split p q l
  omega

/-- An in-place row update that preserves ids commutes with the primary-key
lookup. -/
theorem getPayment_map_pres (ps : List PaymentRow) (pid : String)
    (u : PaymentRow → PaymentRow) (hu : ∀ p, (u p).id = p.id) :
    getPayment (ps.map u) pid = (getPayment ps pid).map u := by
  induction ps with
  | nil => rfl
  | cons x xs ih =>
    simp only [getPayment, List.map_cons, List.find?_cons] at *
    have heq : (decide ((u x).id = pid)) = (decide (x.id = pid)) := by rw [hu x]
    rw [heq]
    by_cases hx : x.id = pid
    · simp [hx]
    · have hfalse : (decide (x.id = pid)) = false := decide_eq_false hx
      rw [hfalse]
      exact ih

/-- `confirmUpdate` never changes a row's id. -/
theorem confirmUpdate_id (paymentId txHash : String) (confs now : Nat) (p : PaymentRow) :
    (confirmUpdate paymentId txHash confs now p).id = p.id := by
  unfold confirmUpdate
  split <;> rfl

/-- When the target payment exists and every row carrying `txHash` is the
target itself, `handleConfirmedTransaction` succeeds and writes the
confirmation update; no status check is involved. -/
theorem handleConfirmedTransaction_ok (ps : List PaymentRow) (pid txHash : String)
    (confs : Nat) (amt : String) (now : Nat) (p : PaymentRow)
    (hfind : getPayment ps pid = some p)
    (hguard : ∀ q ∈ ps, q.txHash = some txHash → q.id = pid) :
    handleConfirmedTransaction ps pid txHash confs amt now =
      .ok (ps.map (confirmUpdate pid txHash confs now)) := by
  unfold handleConfirmedTransaction
  rw [hfind]
  cases hbt : getPaymentByTxHash ps txHash with
  | none => rfl
  | some ex =>
    have hmem : ex ∈ ps := List.mem_of_find?_eq_some hbt
    have hpred : ex.txHash = some txHash := by
      have := List.find?_some hbt
      exact of_decide_eq_true this
    have hid : ex.id = pid := hguard ex hmem hpred
    simp only [hid, ite_not, if_pos rfl]
    simp [confirmUpdate]

/-- Expiring a batch of rows one id at a time is the same as one pass marking
every row whose id occurs in the batch. -/
theorem foldl_expire_eq_map (D : List SubscriptionRow) (acc : List SubscriptionRow) :
    D.foldl (fun a s => updateSubscriptionStatus a s.id .expired) acc =
      acc.map (fun x =>
        if x.id ∈ D.map SubscriptionRow.id then { x with status := .expired } else x) := by
  induction D generalizing acc with
  | nil => simp
  | cons d ds ih =>
    simp only [List.foldl_cons]
    rw [ih]
    unfold updateSubscriptionStatus
    rw [List.map_map]
    apply List.map_congr_left
    intro x _
    by_cases hxd : x.id = d.id
    · simp [Function.comp, hxd, List.mem_cons]
    · simp [Function.comp, hxd, List.mem_cons]

/-! ## Claim theorems -/

/-- C1: the Payment engine is claimed to call `checkAddress` on the normalized
sender address before any persistence and to fail with `OFAC_SANCTIONED` on a
match.  Evaluating the source at a sender address that `checkAddress` reports
as sanctioned: `initiatePayment` performs no screening, succeeds, and persists
one `pending` payment row for the sanctioned sender. -/
theorem initiatePayment_ignores_ofac_sanctions :
    (checkAddress ofacDemoTable sanctionedSender).isSanctioned = true ∧
    (initiatePayment { tenants := [demoTenant], plans := [demoPlan], payments := [] }
        "t1" "u1" "pl1" .arbitrum .USDC sanctionedSender none none 1000 "p1"
        (fun a => a) (fun a => a)).toOption.map
      (fun r => (r.2.length, r.2.map PaymentRow.status)) =
      some (1, [PaymentStatus.pending]) := by
  decide

/-- C3 counterexample: invoked on a payment whose status is `cancelled` (with
an unused tx hash), `handleConfirmedTransaction` is claimed to reject and
leave the payment unchanged; the source instead succeeds and marks the
cancelled payment `confirmed`. -/
theorem handleConfirmedTransaction_accepts_cancelled :
    cancelledPayment.status = PaymentStatus.cancelled ∧
    handleConfirmedTransaction [cancelledPayment] "p1" "0xabc" 3 "19.99" 999 =
      .ok [cancelledPaymentConfirmed] := by
  decide

/-- C2 counterexample: processing a confirmed transaction for a payment whose
plan row is missing marks the payment `confirmed` yet activates no
subscription — the two state changes are claimed to happen atomically
(both or neither), but the failure of subscription activation is caught after
the payment update has been persisted. -/
theorem handlePaymentConfirmed_not_atomic :
    ((handlePaymentConfirmed
        { payments := [awaitingPaymentMissingPlan], subscriptions := [],
          plans := [], events := [] }
        awaitingPaymentMissingPlan "0xabc" 3 "19.99" 50 "s1").payments.map
      PaymentRow.status = [PaymentStatus.confirmed]) ∧
    (handlePaymentConfirmed
        { payments := [awaitingPaymentMissingPlan], subscriptions := [],
          plans := [], events := [] }
        awaitingPaymentMissingPlan "0xabc" 3 "19.99" 50 "s1").subscriptions = [] := by
  decide

/-- C5 counterexample: a subscription whose stored status is `active` but
whose `ends_at` has passed is invisible to `getActiveSubscription`, so
`activateSubscription` does not move it to `expired`; after activating a new
subscription for the same `(tenant, user)`, two rows carry stored status
`active` — the claimed "at most one `active` subscription" is violated. -/
theorem activateSubscription_two_stored_active :
    (activateSubscription [demoPlan] [staleActiveSub] demoPaymentConfirmed 200 "s2").toOption.map
      (fun r => r.2.countP (fun s => s.status = SubscriptionStatus.active)) = some 2 := by
  decide

/-- C6 counterexample: the expiry sweep at `now = 10` expires the subscription
with `ends_at = 5` but not the one with `ends_at = 10` (the claimed bound is
`ends_at ≤ now`; the source query uses strict `<`), and it emits no
`subscription.expired` webhook for the subscription it does expire. -/
theorem checkAndExpireSubscriptions_boundary_and_no_webhook :
    subBoundaryDemo.endsAt = some 10 ∧
    checkAndExpireSubscriptions [subDueDemo, subBoundaryDemo] 10 =
      (1, [{ subDueDemo with status := .expired }, subBoundaryDemo], []) ∧
    subBoundaryDemo.status = SubscriptionStatus.active := by
  decide

/-- C7 counterexample: the first failed delivery of a log with
`retry_count = 0` is claimed to set `next_retry_at = now + 60 s`; the source
indexes `WEBHOOK_RETRY_DELAYS` with the incremented count, so it writes
`retry_count = 1` and `next_retry_at = now + 300 s`. -/
theorem scheduleRetry_first_delay_is_300s :
    scheduleRetry [demoWebhookLog] "w1" 1000000 =
      [{ demoWebhookLog with
           retryCount := 1
           nextRetryAt := some (1000000 + 300 * 1000) }] ∧
    (1000000 + 300 * 1000 : Nat) ≠ 1000000 + 60 * 1000 := by
  decide

/-- C8: a webhook log that has exhausted the retry schedule is claimed to be
terminally failed, never again selected by the retry sweep.  Evaluating the
source on a log with `retry_count = 3` (so the next failure computes
`3 + 1 ≥ 4` and leaves the row untouched) and a past `next_retry_at`:
`getPendingWebhooks` still selects it (`retry_count < 4`), so
`retryPendingWebhooks` delivers it again, and `scheduleRetry` after the next
failure leaves the row unchanged and hence selectable forever. -/
theorem getPendingWebhooks_reselects_exhausted_log :
    getPendingWebhooks [exhaustedWebhookLog] 10000 = [exhaustedWebhookLog] ∧
    scheduleRetry [exhaustedWebhookLog] "w1" 10000 = [exhaustedWebhookLog] ∧
    exhaustedWebhookLog.retryCount + 1 ≥ WEBHOOK_RETRY_DELAYS.length := by
  decide

/-- C9 counterexample: with the transfer in block 100 and the current block
118, the claimed formula `currentBlock − txBlock + 1` yields 19, which meets
the Tron minimum of 19, so the claim predicts acceptance; the source computes
`max 0 (currentBlock − txBlock)` = 18 and rejects the transfer. -/
theorem tronFindTransfer_rejects_at_offset_18 :
    getTransactionConfirmations (some 100) 118 = 18 ∧
    (118 - 100 + 1 : Int) = 19 ∧
    minConfirmations .tron ≤ 19 ∧
    tronFindTransfer [demoTronTransfer] "TSenderAAAAAAAAAAAAAAAAAAAAAAAAAAA"
      (1999 / 100 : ℚ) 6 (fun h => getTransactionConfirmations
        ((fun _ => (some 100 : Option Int)) h) 118) = none := by
  refine ⟨by decide, by decide, by decide, ?_⟩
  norm_num [tronFindTransfer, demoTronTransfer, getTransactionConfirmations,
    minConfirmations]

/-- C7 (amended): when a delivery fails for a pending log with
`retry_count = 0` the engine sets `retry_count = 1` and
`next_retry_at = now + 300 s`; on the second failure it sets
`retry_count = 2` and `next_retry_at = now + 900 s` — the schedule indexes
`WEBHOOK_RETRY_DELAYS` with the incremented count, so the 60-second first
delay is never used. -/
theorem scheduleRetry_delay_schedule (logs : List WebhookLogRow) (logId : String)
    (now : Nat) (log : WebhookLogRow)
    (hfind : (getPendingWebhooks logs now).find? (fun l => l.id = logId) = some log) :
    (log.retryCount = 0 → scheduleRetry logs logId now = logs.map (fun l =>
      if l.id = logId then
        { l with retryCount := 1, nextRetryAt := some (now + 300 * 1000) }
      else l)) ∧
    (log.retryCount = 1 → scheduleRetry logs logId now = logs.map (fun l =>
      if l.id = logId then
        { l with retryCount := 2, nextRetryAt := some (now + 900 * 1000) }
      else l)) := by
  unfold scheduleRetry
  rw [hfind]
  dsimp only
  constructor
  · intro h0
    rw [h0]
    rfl
  · intro h1
    rw [h1]
    rfl

/-- C7 witness: the schedule applied to a concrete one-element log store, in
both the first-failure and the second-failure configuration. -/
theorem scheduleRetry_delay_schedule_witness :
    ((demoWebhookLog.retryCount = 0 →
      scheduleRetry [demoWebhookLog] "w1" 1000000 = [demoWebhookLog].map (fun l =>
        if l.id = "w1" then
          { l with retryCount := 1, nextRetryAt := some (1000000 + 300 * 1000) }
        else l)) ∧
     (demoWebhookLog.retryCount = 1 →
      scheduleRetry [demoWebhookLog] "w1" 1000000 = [demoWebhookLog].map (fun l =>
        if l.id = "w1" then
          { l with retryCount := 2, nextRetryAt := some (1000000 + 900 * 1000) }
        else l))) :=
  scheduleRetry_delay_schedule [demoWebhookLog] "w1" 1000000 demoWebhookLog (by decide)

/-- C10: `getActiveSubscription` returns a row only if its status is `active`
and its `ends_at` is null or strictly after `now`; consequently, when every
subscription of a `(tenant, user)` pair has a passed `ends_at`, the user is
reported as having no subscription by `isSubscriptionActive` and
`getCurrentSubscription`, even while stored statuses are still `active`. -/
theorem getActiveSubscription_only_unexpired_active :
    (∀ (subs : List SubscriptionRow) (t u : String) (now : Nat) (s : SubscriptionRow),
      getActiveSubscription subs t u now = some s →
      s.status = SubscriptionStatus.active ∧
      (s.endsAt = none ∨ ∃ e, s.endsAt = some e ∧ now < e)) ∧
    (∀ (subs : List SubscriptionRow) (t u : String) (now : Nat),
      (∀ s ∈ subs, s.tenantId = t → s.externalUserId = u →
        ∃ e, s.endsAt = some e ∧ e ≤ now) →
      isSubscriptionActive subs t u now = false ∧
      (getCurrentSubscription subs t u now).hasSubscription = false) := by
  constructor
  · intro subs t u now s h
    have hmem := pickLatest_mem h
    rw [List.mem_filter] at hmem
    have hp : pairActive t u now s := of_decide_eq_true hmem.2
    exact hp.2.2
  · intro subs t u now hall
    have hfilter : subs.filter (fun s => pairActive t u now s) = [] := by
      rw [List.filter_eq_nil_iff]
      intro s hs
      intro hdec
      have hp : pairActive t u now s := of_decide_eq_true hdec
      obtain ⟨e, he, hle⟩ := hall s hs hp.1 hp.2.1
      rcases hp.2.2.2 with hnone | ⟨e2, he2, hlt⟩
      · rw [hnone] at he; exact Option.noConfusion he
      · rw [he2] at he
        have : e2 = e := Option.some.inj he
        omega
    have hget : getActiveSubscription subs t u now = none := by
      unfold getActiveSubscription
      rw [hfilter]
      rfl
    constructor
    · unfold isSubscriptionActive
      rw [hget]
      rfl
    · unfold getCurrentSubscription
      rw [hget]

/-- C10 witness: a lifetime subscription (no `ends_at`) is returned and
satisfies the predicate; a `(tenant, user)` whose only subscription has
`ends_at = 100 ≤ 200` is reported inactive although its stored status is
`active`. -/
theorem getActiveSubscription_only_unexpired_active_witness :
    (lifetimeActiveSub.status = SubscriptionStatus.active ∧
      (lifetimeActiveSub.endsAt = none ∨
        ∃ e, lifetimeActiveSub.endsAt = some e ∧ 200 < e)) ∧
    (isSubscriptionActive [staleActiveSub] "t1" "u1" 200 = false ∧
      (getCurrentSubscription [staleActiveSub] "t1" "u1" 200).hasSubscription = false) :=
  ⟨getActiveSubscription_only_unexpired_active.1 [lifetimeActiveSub] "t1" "u1" 200
      lifetimeActiveSub (by decide),
   getActiveSubscription_only_unexpired_active.2 [staleActiveSub] "t1" "u1" 200
      (by decide)⟩

/-- C6 (amended): the expiry sweep sets every subscription with status
`active` and `ends_at` strictly before `now` to `expired` (a row with
`ends_at = now` is untouched), leaves all other rows unchanged, returns the
count of rows it expired, and emits no webhook. -/
theorem checkAndExpireSubscriptions_behavior (subs : List SubscriptionRow) (now : Nat)
    (hids : (subs.map SubscriptionRow.id).Nodup) :
    checkAndExpireSubscriptions subs now =
      (subs.countP (fun s => subDue now s),
       subs.map (fun s => if subDue now s then { s with status := .expired } else s),
       []) := by
  unfold checkAndExpireSubscriptions
  refine congrArg₂ Prod.mk ?_ (congrArg₂ Prod.mk ?_ rfl)
  · unfold getExpiredSubscriptions
    rw [List.countP_eq_length_filter]
  · rw [foldl_expire_eq_map]
    apply List.map_congr_left
    intro x hx
    have hiff : (x.id ∈ (getExpiredSubscriptions subs now).map SubscriptionRow.id) ↔
        subDue now x := by
      constructor
      · intro hmem
        rw [List.mem_map] at hmem
        obtain ⟨y, hy, hyx⟩ := hmem
        unfold getExpiredSubscriptions at hy
        rw [List.mem_filter] at hy
        have hyx2 : y = x := List.inj_on_of_nodup_map hids hy.1 hx hyx
        rw [← hyx2]
        exact of_decide_eq_true hy.2
      · intro hdue
        apply List.mem_map_of_mem
        unfold getExpiredSubscriptions
        rw [List.mem_filter]
        exact ⟨hx, decide_eq_true hdue⟩
    by_cases hdue : subDue now x
    · rw [if_pos (hiff.mpr hdue), if_pos hdue]
    · rw [if_neg (fun hmem => hdue (hiff.mp hmem)), if_neg hdue]

/-- C6 witness: the sweep at `now = 10` over a due subscription
(`ends_at = 5`) and a boundary one (`ends_at = 10`). -/
theorem checkAndExpireSubscriptions_behavior_witness :
    checkAndExpireSubscriptions [subDueDemo, subBoundaryDemo] 10 =
      ([subDueDemo, subBoundaryDemo].countP (fun s => subDue 10 s),
       [subDueDemo, subBoundaryDemo].map
         (fun s => if subDue 10 s then { s with status := .expired } else s),
       []) :=
  checkAndExpireSubscriptions_behavior [subDueDemo, subBoundaryDemo] 10 (by decide)

/-- C3 (amended): `handleConfirmedTransaction` checks only that the payment
exists and that no other payment carries the tx hash — it performs no status
check, so it succeeds and marks the payment `confirmed` from any prior status
(the `awaiting_confirmation` guard lives in the monitor's `checkPayment`,
which runs before it, not in the handler itself). -/
theorem handleConfirmedTransaction_no_status_check
    (ps : List PaymentRow) (pid txHash : String) (confs : Nat) (amt : String) (now : Nat)
    (p : PaymentRow)
    (hfind : getPayment ps pid = some p)
    (hguard : ∀ q ∈ ps, q.txHash = some txHash → q.id = pid) :
    handleConfirmedTransaction ps pid txHash confs amt now =
      .ok (ps.map (confirmUpdate pid txHash confs now)) ∧
    (getPayment (ps.map (confirmUpdate pid txHash confs now)) pid).map PaymentRow.status =
      some PaymentStatus.confirmed := by
  have hok := handleConfirmedTransaction_ok ps pid txHash confs amt now p hfind hguard
  refine ⟨hok, ?_⟩
  have hfind2 : ps.find? (fun q => decide (q.id = pid)) = some p := hfind
  have hp := List.find?_some hfind2
  have hpid : p.id = pid := of_decide_eq_true hp
  rw [getPayment_map_pres ps pid _ (confirmUpdate_id pid txHash confs now), hfind]
  unfold confirmUpdate
  dsimp only [Option.map]
  rw [if_pos hpid]

/-- C3 witness: the handler applied to a store holding one `cancelled`
payment still succeeds and reports it `confirmed`. -/
theorem handleConfirmedTransaction_no_status_check_witness :
    handleConfirmedTransaction [cancelledPayment] "p1" "0xabc" 3 "19.99" 999 =
      .ok ([cancelledPayment].map (confirmUpdate "p1" "0xabc" 3 999)) ∧
    (getPayment ([cancelledPayment].map (confirmUpdate "p1" "0xabc" 3 999)) "p1").map
      PaymentRow.status = some PaymentStatus.confirmed :=
  handleConfirmedTransaction_no_status_check [cancelledPayment] "p1" "0xabc" 3 "19.99" 999
    cancelledPayment (by decide) (by decide)

/-- C2 (amended): the confirmation path is sequential, not atomic.  It first
marks the payment `confirmed` via `handleConfirmedTransaction`; subscription
activation runs afterwards and its failure is caught and only logged, leaving
the payment `confirmed` with the subscription store untouched.  When the plan
lookup succeeds, an `active` subscription whose `payment_id` is the payment's
id is created. -/
theorem handlePaymentConfirmed_confirm_then_activate
    (st : SysState) (payment p : PaymentRow) (txHash : String) (confs : Nat) (amt : String)
    (now : Nat) (newSubId : String)
    (hfind : getPayment st.payments payment.id = some p)
    (hguard : ∀ q ∈ st.payments, q.txHash = some txHash → q.id = payment.id) :
    ((getPayment (handlePaymentConfirmed st payment txHash confs amt now newSubId).payments
        payment.id).map PaymentRow.status = some PaymentStatus.confirmed) ∧
    ((st.plans.find? (fun pl => pl.id = p.planId)).isSome →
      ∃ sub ∈ (handlePaymentConfirmed st payment txHash confs amt now newSubId).subscriptions,
        sub.paymentId = some payment.id ∧ sub.status = SubscriptionStatus.active) ∧
    (st.plans.find? (fun pl => pl.id = p.planId) = none →
      (handlePaymentConfirmed st payment txHash confs amt now newSubId).subscriptions =
        st.subscriptions) := by
  have hok := handleConfirmedTransaction_ok st.payments payment.id txHash confs amt now
    p hfind hguard
  have hfind2 : st.payments.find? (fun q => decide (q.id = payment.id)) = some p := hfind
  have hp2 := List.find?_some hfind2
  have hpid : p.id = payment.id := of_decide_eq_true hp2
  have hgp : getPayment (st.payments.map (confirmUpdate payment.id txHash confs now))
      payment.id = some (confirmUpdate payment.id txHash confs now p) := by
    rw [getPayment_map_pres _ _ _ (confirmUpdate_id payment.id txHash confs now), hfind]
    rfl
  have hup : confirmUpdate payment.id txHash confs now p =
      { p with status := .confirmed, txHash := some txHash,
               confirmations := confs, txConfirmedAt := some now } := by
    unfold confirmUpdate
    rw [if_pos hpid]
  unfold handlePaymentConfirmed
  rw [hok]
  dsimp only
  rw [hgp, hup]
  dsimp only
  unfold activateSubscription
  dsimp only
  cases hplan : st.plans.find? (fun pl => pl.id = p.planId) with
  | none =>
    dsimp only
    refine ⟨?_, ?_, ?_⟩
    · rw [hgp, hup]
      rfl
    · intro hsome
      simp at hsome
    · intro _
      rfl
  | some plan =>
    dsimp only
    refine ⟨?_, ?_, ?_⟩
    · rw [hgp, hup]
      rfl
    · intro _
      refine ⟨_, List.mem_append_right _ (List.mem_singleton_self _), ?_, rfl⟩
      dsimp only
      rw [hpid]
    · intro hnone
      simp at hnone

/-- C2 witness: the confirmation path on a one-payment store whose plan
exists: the payment is confirmed and an active subscription referencing it
exists; the plan-missing branch holds vacuously. -/
theorem handlePaymentConfirmed_confirm_then_activate_witness :
    ((getPayment (handlePaymentConfirmed
        { payments := [awaitingPayment], subscriptions := [], plans := [demoPlan],
          events := [] }
        awaitingPayment "0xabc" 3 "19.99" 50 "s1").payments
        awaitingPayment.id).map PaymentRow.status = some PaymentStatus.confirmed) ∧
    (([demoPlan].find? (fun pl => pl.id = awaitingPayment.planId)).isSome →
      ∃ sub ∈ (handlePaymentConfirmed
        { payments := [awaitingPayment], subscriptions := [], plans := [demoPlan],
          events := [] }
        awaitingPayment "0xabc" 3 "19.99" 50 "s1").subscriptions,
        sub.paymentId = some awaitingPayment.id ∧
        sub.status = SubscriptionStatus.active) ∧
    ([demoPlan].find? (fun pl => pl.id = awaitingPayment.planId) = none →
      (handlePaymentConfirmed
        { payments := [awaitingPayment], subscriptions := [], plans := [demoPlan],
          events := [] }
        awaitingPayment "0xabc" 3 "19.99" 50 "s1").subscriptions = []) :=
  handlePaymentConfirmed_confirm_then_activate
    { payments := [awaitingPayment], subscriptions := [], plans := [demoPlan], events := [] }
    awaitingPayment awaitingPayment "0xabc" 3 "19.99" 50 "s1" (by decide) (by decide)

/-- `confirmUpdate` on the targeted row. -/
theorem confirmUpdate_pos (paymentId txHash : String) (confs now : Nat) (p : PaymentRow)
    (h : p.id = paymentId) :
    confirmUpdate paymentId txHash confs now p =
      { p with status := .confirmed, txHash := some txHash,
               confirmations := confs, txConfirmedAt := some now } := by
  unfold confirmUpdate
  rw [if_pos h]

/-- `confirmUpdate` on any other row. -/
theorem confirmUpdate_neg (paymentId txHash : String) (confs now : Nat) (p : PaymentRow)
    (h : ¬ p.id = paymentId) :
    confirmUpdate paymentId txHash confs now p = p := by
  unfold confirmUpdate
  rw [if_neg h]

/-- After a guarded confirmation update, distinct confirmed rows still carry
distinct tx hashes: the updated row is the only one holding `txHash`, and all
other rows are unchanged. -/
theorem confirmed_distinct_after_update (ps : List PaymentRow) (pid txHash : String)
    (confs now : Nat) (huniq : TxHashUnique ps)
    (hsole : ∀ x ∈ ps, x.txHash = some txHash → x.id = pid) :
    ConfirmedTxHashDistinct (ps.map (confirmUpdate pid txHash confs now)) := by
  intro a ha b hb hab _ _
  rw [List.mem_map] at ha hb
  obtain ⟨x, hx, hxa⟩ := ha
  obtain ⟨y, hy, hyb⟩ := hb
  by_cases hxid : x.id = pid <;> by_cases hyid : y.id = pid
  · exfalso
    apply hab
    rw [← hxa, ← hyb, confirmUpdate_id, confirmUpdate_id, hxid, hyid]
  · refine Or.inr ?_
    intro heq
    rw [← hxa, confirmUpdate_pos pid txHash confs now x hxid] at heq
    rw [← hyb, confirmUpdate_neg pid txHash confs now y hyid] at heq
    exact hyid (hsole y hy heq.symm)
  · refine Or.inr ?_
    intro heq
    rw [← hyb, confirmUpdate_pos pid txHash confs now y hyid] at heq
    rw [← hxa, confirmUpdate_neg pid txHash confs now x hxid] at heq
    exact hxid (hsole x hx heq)
  · rw [← hxa, confirmUpdate_neg pid txHash confs now x hxid] at hab ⊢
    rw [← hyb, confirmUpdate_neg pid txHash confs now y hyid] at hab ⊢
    exact huniq x hx y hy hab

/-- C4: under the tx-hash uniqueness invariant, `handleConfirmedTransaction`
raises a domain error and leaves the store unchanged whenever another payment
already carries the tx hash; and any successful run preserves the property
that two distinct confirmed payments have distinct tx hashes. -/
theorem handleConfirmedTransaction_double_spend_guard
    (ps : List PaymentRow) (pid txHash : String) (confs : Nat) (amt : String) (now : Nat)
    (huniq : TxHashUnique ps) :
    ((∃ q ∈ ps, q.id ≠ pid ∧ q.txHash = some txHash) →
      ∃ e, runHandleConfirmedTransaction ps pid txHash confs amt now = (some e, ps)) ∧
    (∀ ps', handleConfirmedTransaction ps pid txHash confs amt now = .ok ps' →
      ConfirmedTxHashDistinct ps') := by
  constructor
  · rintro ⟨q, hq, hqid, hqhash⟩
    unfold runHandleConfirmedTransaction handleConfirmedTransaction
    cases hgp : getPayment ps pid with
    | none => exact ⟨"Payment not found", rfl⟩
    | some target =>
      have hfoundSome : (getPaymentByTxHash ps txHash).isSome := by
        unfold getPaymentByTxHash
        rw [List.find?_isSome]
        exact ⟨q, hq, by simp [hqhash]⟩
      obtain ⟨r, hr⟩ := Option.isSome_iff_exists.mp hfoundSome
      have hr2 : ps.find? (fun p => decide (p.txHash = some txHash)) = some r := hr
      have hrmem : r ∈ ps := List.mem_of_find?_eq_some hr2
      have hrb := List.find?_some hr2
      have hrhash : r.txHash = some txHash := of_decide_eq_true hrb
      have hrid : ¬ r.id = pid := by
        intro hrid
        have hne : r.id ≠ q.id := by
          rw [hrid]
          exact fun hh => hqid hh.symm
        rcases huniq r hrmem q hq hne with hnone | hdiff
        · rw [hrhash] at hnone
          exact Option.noConfusion hnone
        · rw [hrhash, hqhash] at hdiff
          exact hdiff rfl
      rw [hr]
      refine ⟨"Transaction already used for another payment", ?_⟩
      dsimp only
      rw [if_pos hrid]
  · intro ps' hok
    unfold handleConfirmedTransaction at hok
    cases hgp : getPayment ps pid with
    | none =>
      rw [hgp] at hok
      exact absurd hok (by simp)
    | some target =>
      rw [hgp] at hok
      cases hbt : getPaymentByTxHash ps txHash with
      | none =>
        rw [hbt] at hok
        have hsole : ∀ x ∈ ps, x.txHash = some txHash → x.id = pid := by
          intro x hx hxh
          exfalso
          have hnone : ∀ x ∈ ps, ¬ (decide (x.txHash = some txHash) = true) := by
            have := List.find?_eq_none.mp (hbt : ps.find? (fun p => decide (p.txHash = some txHash)) = none)
            exact this
          exact hnone x hx (decide_eq_true hxh)
        have hps : ps' = ps.map (confirmUpdate pid txHash confs now) :=
          (Except.ok.inj hok).symm
        rw [hps]
        exact confirmed_distinct_after_update ps pid txHash confs now huniq hsole
      | some ex =>
        rw [hbt] at hok
        have hex2 : ps.find? (fun p => decide (p.txHash = some txHash)) = some ex := hbt
        have hexmem : ex ∈ ps := List.mem_of_find?_eq_some hex2
        have hexb := List.find?_some hex2
        have hexhash : ex.txHash = some txHash := of_decide_eq_true hexb
        dsimp only at hok
        by_cases hexid : ex.id = pid
        · rw [if_neg (fun hh => hh hexid)] at hok
          have hsole : ∀ x ∈ ps, x.txHash = some txHash → x.id = pid := by
            intro x hx hxh
            by_contra hxid
            have hne : ex.id ≠ x.id := by
              rw [hexid]
              exact fun hh => hxid hh.symm
            rcases huniq ex hexmem x hx hne with hnone | hdiff
            · rw [hexhash] at hnone
              exact Option.noConfusion hnone
            · rw [hexhash, hxh] at hdiff
              exact hdiff rfl
          have hps : ps' = ps.map (confirmUpdate pid txHash confs now) :=
            (Except.ok.inj hok).symm
          rw [hps]
          exact confirmed_distinct_after_update ps pid txHash confs now huniq hsole
        · rw [if_pos hexid] at hok
          exact absurd hok (by simp)

/-- C4 witness: a store holding the target `awaiting_confirmation` payment and
a second payment already confirmed with tx hash `0xdup`. -/
theorem handleConfirmedTransaction_double_spend_guard_witness :
    ((∃ q ∈ [awaitingPayment, confirmedWithDup], q.id ≠ "p1" ∧ q.txHash = some "0xdup") →
      ∃ e, runHandleConfirmedTransaction [awaitingPayment, confirmedWithDup]
        "p1" "0xdup" 3 "19.99" 99 = (some e, [awaitingPayment, confirmedWithDup])) ∧
    (∀ ps', handleConfirmedTransaction [awaitingPayment, confirmedWithDup]
        "p1" "0xdup" 3 "19.99" 99 = .ok ps' → ConfirmedTxHashDistinct ps') :=
  handleConfirmedTransaction_double_spend_guard [awaitingPayment, confirmedWithDup]
    "p1" "0xdup" 3 "19.99" 99 (by decide)

/-- Expiring one subscription row never increases the number of rows
satisfying `pairActive`. -/
theorem countP_pairActive_update_le (subs : List SubscriptionRow) (eid : String)
    (t u : String) (now : Nat) :
    (updateSubscriptionStatus subs eid .expired).countP
        (fun s => pairActive t u now s) ≤
      subs.countP (fun s => pairActive t u now s) := by
  unfold updateSubscriptionStatus
  rw [List.countP_map]
  apply List.countP_mono_left
  intro x _ hx
  simp only [Function.comp] at hx
  have hp := of_decide_eq_true hx
  by_cases hid : x.id = eid
  · rw [if_pos hid] at hp
    exact absurd hp.2.2.1 (by simp)
  · rw [if_neg hid] at hp
    exact decide_eq_true hp

/-- C5 (amended): `activateSubscription` expires only the row returned by
`getActiveSubscription` — one whose status is `active` and whose `ends_at` is
null or in the future; a stale row whose stored status is `active` but whose
`ends_at` has passed is left untouched, so more than one row may carry stored
status `active`.  What activation preserves is: per `(tenant, user)`, at most
one subscription that is active and unexpired at the activation time. -/
theorem activateSubscription_at_most_one_effective_active
    (plans : List PlanRow) (subs : List SubscriptionRow) (payment : PaymentRow)
    (now : Nat) (newSubId : String) (t u : String)
    (res : SubscriptionRow × List SubscriptionRow)
    (hle : subs.countP (fun s => pairActive t u now s) ≤ 1)
    (hok : activateSubscription plans subs payment now newSubId = .ok res) :
    res.2.countP (fun s => pairActive t u now s) ≤ 1 := by
  unfold activateSubscription at hok
  cases hplan : plans.find? (fun p => p.id = payment.planId) with
  | none =>
    rw [hplan] at hok
    exact absurd hok (by simp)
  | some plan =>
    rw [hplan] at hok
    dsimp only at hok
    have hres := (Except.ok.inj hok).symm
    rw [hres]
    dsimp only
    rw [List.countP_append]
    have hnewSubPair : ∀ hcond : payment.tenantId = t ∧ payment.externalUserId = u,
        pairActive t u now
          ({ id := newSubId, tenantId := payment.tenantId,
             externalUserId := payment.externalUserId, planId := payment.planId,
             paymentId := some payment.id, status := .active, startsAt := now,
             endsAt :=
               match plan.periodDays with
               | some d => if d > 0 then some (now + d * 24 * 60 * 60 * 1000) else none
               | none => none,
             createdAt := now } : SubscriptionRow) := by
      intro hcond
      refine ⟨hcond.1, hcond.2, rfl, ?_⟩
      cases hd : plan.periodDays with
      | none => exact Or.inl rfl
      | some d =>
        by_cases hdpos : d > 0
        · refine Or.inr ⟨now + d * 24 * 60 * 60 * 1000, ?_, ?_⟩
          · dsimp only
            rw [if_pos hdpos]
          · have hpos : 0 < d * 24 * 60 * 60 * 1000 := by positivity
            omega
        · refine Or.inl ?_
          dsimp only
          rw [if_neg hdpos]
    by_cases hpe : payment.tenantId = t ∧ payment.externalUserId = u
    · have hone : List.countP (fun s => pairActive t u now s)
          [({ id := newSubId, tenantId := payment.tenantId,
              externalUserId := payment.externalUserId, planId := payment.planId,
              paymentId := some payment.id, status := .active, startsAt := now,
              endsAt :=
                match plan.periodDays with
                | some d => if d > 0 then some (now + d * 24 * 60 * 60 * 1000) else none
                | none => none,
              createdAt := now } : SubscriptionRow)] = 1 := by
        rw [List.countP_singleton, decide_eq_true (hnewSubPair hpe)]
        rfl
      rw [hone]
      have hzero : (match getActiveSubscription subs payment.tenantId
            payment.externalUserId now with
          | some existing => updateSubscriptionStatus subs existing.id .expired
          | none => subs).countP (fun s => pairActive t u now s) = 0 := by
        cases hga : getActiveSubscription subs payment.tenantId payment.externalUserId now with
        | none =>
          dsimp only
          unfold getActiveSubscription at hga
          have hfil := (pickLatest_eq_none_iff _).mp hga
          rw [hpe.1, hpe.2] at hfil
          rw [List.countP_eq_length_filter, hfil]
          rfl
        | some ex =>
          dsimp only
          unfold getActiveSubscription at hga
          have hexmem0 := pickLatest_mem hga
          rw [List.mem_filter] at hexmem0
          have hexmem : ex ∈ subs := hexmem0.1
          have hexp0 : pairActive payment.tenantId payment.externalUserId now ex :=
            of_decide_eq_true hexmem0.2
          have hexp : decide (pairActive t u now ex) = true := by
            apply decide_eq_true
            rw [← hpe.1, ← hpe.2]
            exact hexp0
          have hstep : (updateSubscriptionStatus subs ex.id .expired).countP
              (fun s => pairActive t u now s) ≤
              subs.countP (fun s => decide (pairActive t u now s) &&
                decide (s.id ≠ ex.id)) := by
            unfold updateSubscriptionStatus
            rw [List.countP_map]
            apply List.countP_mono_left
            intro x _ hqx
            simp only [Function.comp] at hqx
            have hq := of_decide_eq_true hqx
            by_cases hid : x.id = ex.id
            · rw [if_pos hid] at hq
              exact absurd hq.2.2.1 (by simp)
            · rw [if_neg hid] at hq
              simp [decide_eq_true hq, hid]
          have helim : subs.countP (fun s => decide (pairActive t u now s) &&
              decide (s.id ≠ ex.id)) = 0 := by
            apply countP_eliminate_unique (fun s => decide (pairActive t u now s))
              (fun s => decide (s.id ≠ ex.id)) subs hle ex hexmem hexp
            simp
          omega
      omega
    · have hzero1 : List.countP (fun s => pairActive t u now s)
          [({ id := newSubId, tenantId := payment.tenantId,
              externalUserId := payment.externalUserId, planId := payment.planId,
              paymentId := some payment.id, status := .active, startsAt := now,
              endsAt :=
                match plan.periodDays with
                | some d => if d > 0 then some (now + d * 24 * 60 * 60 * 1000) else none
                | none => none,
              createdAt := now } : SubscriptionRow)] = 0 := by
        rw [List.countP_singleton]
        have hfalse : decide (pairActive t u now
            ({ id := newSubId, tenantId := payment.tenantId,
               externalUserId := payment.externalUserId, planId := payment.planId,
               paymentId := some payment.id, status := .active, startsAt := now,
               endsAt :=
                 match plan.periodDays with
                 | some d => if d > 0 then some (now + d * 24 * 60 * 60 * 1000) else none
                 | none => none,
               createdAt := now } : SubscriptionRow)) = false := by
          apply decide_eq_false
          intro hp
          exact hpe ⟨hp.1, hp.2.1⟩
        rw [hfalse]
        rfl
      rw [hzero1]
      have hfirst : (match getActiveSubscription subs payment.tenantId
            payment.externalUserId now with
          | some existing => updateSubscriptionStatus subs existing.id .expired
          | none => subs).countP (fun s => pairActive t u now s) ≤
          subs.countP (fun s => pairActive t u now s) := by
        cases getActiveSubscription subs payment.tenantId payment.externalUserId now with
        | none => exact Nat.le_refl _
        | some ex => exact countP_pairActive_update_le subs ex.id t u now
      omega

/-- C5 witness: activating on an empty subscription store yields exactly one
effectively-active subscription for the payment's pair. -/
theorem activateSubscription_at_most_one_effective_active_witness :
    (activatedDemoSub, [activatedDemoSub]).2.countP
      (fun s => pairActive "t1" "u1" 200 s) ≤ 1 :=
  activateSubscription_at_most_one_effective_active [demoPlan] [] demoPaymentConfirmed
    200 "s2" "t1" "u1" (activatedDemoSub, [activatedDemoSub]) (by decide) (by decide)

/-- C9 (amended): the Tron adapter counts confirmations as
`max 0 (currentBlock − txBlock)`, not counting the block containing the
transfer (unlike the EVM adapter's `+ 1`), and `findTransfer` accepts a
matching transfer only when that count is at least 19, the Tron minimum. -/
theorem tronFindTransfer_confirmation_rule :
    (∀ (b currentBlock : Int),
      getTransactionConfirmations (some b) currentBlock = max 0 (currentBlock - b)) ∧
    ∀ (transfers : List TronTransfer) (senderAddress : String) (requiredAmount : ℚ)
      (decimals : Nat) (blockOf : String → Option Int) (currentBlock : Int),
      match tronFindTransfer transfers senderAddress requiredAmount decimals
          (fun h => getTransactionConfirmations (blockOf h) currentBlock) with
      | none => True
      | some r =>
        r.confirmations = getTransactionConfirmations (blockOf r.txHash) currentBlock ∧
        minConfirmations .tron ≤ r.confirmations := by
  constructor
  · intro b currentBlock
    rfl
  · intro transfers senderAddress requiredAmount decimals blockOf currentBlock
    induction transfers with
    | nil => exact trivial
    | cons tx rest ih =>
      unfold tronFindTransfer
      by_cases h1 : toLowerStr tx.fromAddress ≠ toLowerStr senderAddress
      · rw [if_pos h1]
        exact ih
      · rw [if_neg h1]
        dsimp only
        by_cases h2 : tx.value / (10 : ℚ) ^ decimals < requiredAmount * (99 / 100 : ℚ)
        · rw [if_pos h2]
          exact ih
        · rw [if_neg h2]
          by_cases h3 : getTransactionConfirmations (blockOf tx.transactionId) currentBlock ≥
              minConfirmations .tron
          · rw [if_pos h3]
            exact ⟨rfl, h3⟩
          · rw [if_neg h3]
            exact ih

end CryptoPayments
